import Mathlib

/-!
# Verification of the retouching/toolbox frame-selection core

Shallow embedding of the frame classification, multi-source alignment,
bucketing, sampling and export-naming logic of `framescomp.py` and
`screenshots.py`.  Video decoding, image encoding and HTTP upload are
external collaborators; the embedding models their contracts (a frame's
statistics, the outcome of `random.sample`, the md5 digest) as data or as
quantified parameters, and mirrors every branch of the repository's own
logic.
-/

set_option autoImplicit false

namespace Toolbox

/-- Classification of one frame by its average luma
(`get_frame_stats`, identical in both tools):
`dark` on `0.062746 <= avg <= 0.380000`, `light` on
`0.450000 <= avg <= 0.800000`, otherwise `random`.
Luma is modelled as an exact rational; the thresholds are the decimal
constants of the source, written as explicit fractions
(`62746/1000000 = 0.062746` and so on). -/
def classify (avg : ℚ) : String :=
  if Rat.divInt 62746 1000000 ≤ avg ∧ avg ≤ Rat.divInt 380000 1000000 then "dark"
  else if Rat.divInt 450000 1000000 ≤ avg ∧ avg ≤ Rat.divInt 800000 1000000 then "light"
  else "random"

/-- Data the Frame Statistics Provider reports for one frame of one source:
the average luma (`PlaneStatsAverage`) and the picture type (`PictType`,
absent when the decoder does not set it). -/
structure FrameData where
  luma : ℚ
  pictType : Option String
deriving DecidableEq, Repr

/-- One configured, readable source: its file path, its sync offset
(`file_data.get('sync') or 0`) and its per-frame data; `num_frames` is the
length of `frames`. -/
structure Source where
  file : String
  sync : Int
  frames : List FrameData
deriving DecidableEq, Repr

/-- The fields of the `frame_infos` dictionary built by `get_frame_stats`
that the alignment and sampling logic reads: `index`, the derived
classification `type`, `PictType`, and the raw luma. -/
structure FrameInfo where
  index : Int
  type : String
  pictType : Option String
  luma : ℚ
deriving DecidableEq, Repr

/-- `get_frame_stats(clip, frame_index)`: `None` when
`frame_index < 0 or frame_index + 1 > clip.num_frames`, otherwise the
frame's statistics with the classification attached. -/
def get_frame_stats (src : Source) (frameIndex : Int) : Option FrameInfo :=
  if frameIndex < 0 ∨ (src.frames.length : Int) < frameIndex + 1 then none
  else
    (src.frames[frameIndex.toNat]?).map fun fd =>
      { index := frameIndex, type := classify fd.luma,
        pictType := fd.pictType, luma := fd.luma }

/-- The `FRAMES_TYPE` setting of `framescomp.py`: a configured picture type
(`'I'`, `'P'` or `'B'`), `None` (match the running type dynamically), or
`False` (filtering explicitly disabled). -/
inductive FramesType where
  | null
  | disabled
  | only (t : String)
deriving DecidableEq, Repr

/-- Python truthiness of the running `current_picture_type` value when it
holds a string or `None`: `None` and the empty string are falsy. -/
def optTruthy : Option String → Bool
  | none => false
  | some s => !(s == "")

/-- The initial value of `current_picture_type = FRAMES_TYPE`.  For
`FramesType.disabled` the type check is short-circuited by
`FRAMES_TYPE is not False`, so the running value is never consulted and
`none` is a faithful stand-in for `False`. -/
def FramesType.initial : FramesType → Option String
  | .null => none
  | .disabled => none
  | .only t => some t

/-- One entry of a frame group: the dictionary
`{'file': ..., 'index': ..., 'props': ...}` pushed onto `current_frames`. -/
structure Member where
  file : String
  index : Int
  props : FrameInfo
deriving DecidableEq, Repr

/-- The inner loop of the analysis pass in `main` (framescomp.py) for one
logical position `i`, walking the remaining sources with the running
`current_picture_type`.  Returns `none` when the group is aborted
(out-of-range frame, or picture-type mismatch while filtering is not
disabled), else the built member list in source order. -/
def buildGroupFrom (ft : FramesType) (i : Int) :
    List Source → Option String → Option (List Member)
  | [], _ => some []
  | src :: rest, cur =>
    let frameIndex := i + src.sync
    match get_frame_stats src frameIndex with
    | none => none
    | some fi =>
      if ft ≠ FramesType.disabled ∧ optTruthy cur ∧ fi.pictType ≠ cur then none
      else
        (buildGroupFrom ft i rest fi.pictType).map
          (fun ms => { file := src.file, index := frameIndex, props := fi } :: ms)

/-- The group candidate built at logical position `i`. -/
def buildGroup (ft : FramesType) (sources : List Source) (i : Int) :
    Option (List Member) :=
  buildGroupFrom ft i sources ft.initial

/-- `max(*[file.get('clip').num_frames for file in files_to_process])`. -/
def maxNumFrames (sources : List Source) : Nat :=
  sources.foldr (fun s acc => max s.frames.length acc) 0

/-- The candidate list `frames` together with the logical position each
group was built at: the loop `for i in range(max_frames)` appends the
group for each `i` where `push_frames` stayed true. -/
def candidatesIdx (ft : FramesType) (sources : List Source) (maxFrames : Nat) :
    List (Int × List Member) :=
  (List.range maxFrames).filterMap fun (i : Nat) =>
    (buildGroup ft sources (i : Int)).map (fun g => ((i : Int), g))

/-- The candidate list `frames` (the groups, in order of `i`). -/
def candidates (ft : FramesType) (sources : List Source) (maxFrames : Nat) :
    List (List Member) :=
  (List.range maxFrames).filterMap fun (i : Nat) => buildGroup ft sources (i : Int)

/-- Bucket selection:
`[g for g in frames if all([f.get('props').get('type') == frames_type for f in g])]`. -/
def bucket (label : String) (frames : List (List Member)) : List (List Member) :=
  frames.filter fun g => g.all fun f => f.props.type == label

/-- The `PictType` property the Provider reports for source `s` at logical
position `i` (effective index `i + s.sync`); `none` both for an absent
property and for an out-of-range index (the latter is excluded by the
in-range hypotheses below). -/
def pictTypeAt (s : Source) (i : Int) : Option String :=
  match s.frames[(i + s.sync).toNat]? with
  | some fd => fd.pictType
  | none => none

/-- The running picture-type agreement of the analysis loop: each frame
whose predecessor value is truthy must repeat it, and the value then
becomes that frame's own `PictType`. -/
def chainOk : Option String → List (Option String) → Prop
  | _, [] => True
  | cur, p :: ps => (optTruthy cur = true → p = cur) ∧ chainOk p ps

instance (cur : Option String) (ps : List (Option String)) :
    Decidable (chainOk cur ps) := by
  induction ps generalizing cur with
  | nil => exact isTrue trivial
  | cons p ps ih => exact @instDecidableAnd _ _ _ (ih p)

/-- A one-frame source whose frame has an absent `PictType`. -/
def cexAbsent : Source := ⟨"absent.mkv", 0, [⟨Rat.divInt 1 10, none⟩]⟩

/-- A one-frame source whose frame is an I-frame. -/
def cexIntra : Source := ⟨"intra.mkv", 0, [⟨Rat.divInt 1 10, some "I"⟩]⟩

/-- The luma sequence of the end-to-end scenario of the spec. -/
def scenLumas : List ℚ :=
  [Rat.divInt 1 10, Rat.divInt 1 10, Rat.divInt 1 2, Rat.divInt 1 2,
   Rat.divInt 9 10, Rat.divInt 9 10, Rat.divInt 1 10, Rat.divInt 1 10,
   Rat.divInt 1 2, Rat.divInt 1 2]

/-- Scenario source A: 10 frames, no sync offset, the scenario lumas. -/
def scenA : Source := ⟨"A.mkv", 0, scenLumas.map fun l => ⟨l, none⟩⟩

/-- Scenario source B: identical to A but a distinct file. -/
def scenB : Source := ⟨"B.mkv", 0, scenLumas.map fun l => ⟨l, none⟩⟩

/-- The scenario's candidate list (type filtering disabled). -/
def scenCandidates : List (List Member) :=
  candidates .disabled [scenA, scenB] (maxNumFrames [scenA, scenB])

/-- The scenario's dark bucket. -/
def scenDark : List (List Member) := bucket "dark" scenCandidates

/-- The scenario's light bucket. -/
def scenLight : List (List Member) := bucket "light" scenCandidates

/-- The scenario's random bucket. -/
def scenRandom : List (List Member) := bucket "random" scenCandidates

/-- One entry of `CUSTOM_FRAMES` in framescomp.py:
`{'file_index': ..., 'frame_index': ...}`. -/
structure CustomFrame where
  file_index : Nat
  frame_index : Int
deriving DecidableEq, Repr

/-- The mutable `captures` dictionary at the start of one custom-frame
iteration: the `'custom'` list built by earlier custom requests plus the
standard buckets captured so far. -/
structure Captures where
  custom : List (List Member)
  buckets : List (List (List Member))
deriving DecidableEq, Repr

/-- `captures.values()`. -/
def Captures.values (c : Captures) : List (List (List Member)) :=
  c.custom :: c.buckets

/-- The `is_already_used` scan of framescomp.py: some already-selected
group in some capture category contains a capture whose `file` equals the
requested file and whose `props['index']` equals the requested frame
index. -/
def pairUsed (file : String) (frameIndex : Int)
    (capturesVals : List (List (List Member))) : Bool :=
  capturesVals.any fun ctype => ctype.any fun grp => grp.any fun c =>
    c.file == file && c.props.index == frameIndex

/-- Outcome report of one custom-frame request.  `badIndex` models the
`IndexError` Python would raise when `file_index` is out of range of
`FILES`; the claims below never reach it. -/
inductive CustomOutcome where
  | alreadyUsed
  | notAvailable
  | added
  | badIndex
deriving DecidableEq, Repr

/-- One iteration of the `for custom_frame in CUSTOM_FRAMES` loop of
framescomp.py: look the file up, skip with a report when the
(file, frame-index) pair is already used by any selected group, otherwise
find the candidate group containing the pair and append it to
`captures['custom']` (or skip with a report when none contains it). -/
def customStep (files : List Source) (frames : List (List Member))
    (caps : Captures) (cf : CustomFrame) : Captures × CustomOutcome :=
  match files[cf.file_index]? with
  | none => (caps, .badIndex)
  | some file =>
    if pairUsed file.file cf.frame_index caps.values then
      (caps, .alreadyUsed)
    else
      match frames.find? (fun g => g.any fun m =>
          m.file == file.file && m.props.index == cf.frame_index) with
      | none => (caps, .notAvailable)
      | some g => ({ caps with custom := caps.custom ++ [g] }, .added)

/-- Observable side effects of a run that the claims distinguish: opening
a source with the decoding library (`LWLibavSource`) and decoding one
frame (`clip.get_frame`). -/
inductive Event where
  | openSource (file : String)
  | decodeFrame (file : String) (index : Int)
deriving DecidableEq, Repr

/-- One configured `FILES` entry together with whether `get_clip` succeeds
on it (the file exists and the decoder accepts it — an external fact). -/
structure FileCfg where
  source : Source
  readable : Bool
deriving Repr

/-- The configuration surface of framescomp.py that the analysis prefix of
`main` reads. -/
structure Config where
  files : List FileCfg
  darkFrames : Int
  lightFrames : Int
  randomFrames : Int
  customFrames : List CustomFrame
  keepImages : Bool
  keepImagesPath : Option String
  framesType : FramesType
deriving Repr

/-- The frame-decode events of the analysis loop at position `i`:
`get_frame_stats` checks the range before `clip.get_frame`, so an
out-of-range index decodes nothing and breaks the group; a picture-type
mismatch breaks the group after decoding the offending frame. -/
def groupEvents (ft : FramesType) (i : Int) :
    List Source → Option String → List Event
  | [], _ => []
  | src :: rest, cur =>
    match get_frame_stats src (i + src.sync) with
    | none => []
    | some fi =>
      if ft ≠ FramesType.disabled ∧ optTruthy cur ∧ fi.pictType ≠ cur then
        [Event.decodeFrame src.file (i + src.sync)]
      else
        Event.decodeFrame src.file (i + src.sync) ::
          groupEvents ft i rest fi.pictType

/-- All frame-decode events of the analysis pass. -/
def analysisEvents (ft : FramesType) (sources : List Source) : List Event :=
  (((List.range (maxNumFrames sources)).map fun (i : Nat) =>
    groupEvents ft (i : Int) sources ft.initial)).flatten

/-- The prefix of `main` (framescomp.py) up to and including the analysis
pass, with its observable events and its outcome: the configuration guards
(`KEEP_IMAGES` without a path; no frame kind requested), source discovery
(`get_clip` is attempted on every `FILES` entry and unreadable entries are
dropped silently), the minimum-two-sources check (`sys.exit(1)`), then the
analysis loop that decodes frames.  Exit code 1 models both `exit(1)` and
`sys.exit(1)`. -/
def mainAnalysis (cfg : Config) : List Event × Except Nat (List (List Member)) :=
  if cfg.keepImages = true ∧ optTruthy cfg.keepImagesPath = false then ([], .error 1)
  else if cfg.darkFrames < 1 ∧ cfg.lightFrames < 1 ∧ cfg.randomFrames < 1 ∧
      cfg.customFrames.length < 1 then ([], .error 1)
  else
    let opens := cfg.files.map fun fc => Event.openSource fc.source.file
    let usable := (cfg.files.filter fun fc => fc.readable).map fun fc => fc.source
    if usable.length < 2 then (opens, .error 1)
    else (opens ++ analysisEvents cfg.framesType usable,
          .ok (candidates cfg.framesType usable (maxNumFrames usable)))

/-- `Path(filepath).name` for POSIX-style paths: the characters after the
last `/` (a fold over the path's characters, so that it evaluates by
kernel reduction). -/
def pathName (p : String) : String :=
  String.mk (p.data.foldl (fun acc c => if c = '/' then [] else acc ++ [c]) [])

/-- The output filename computed by `save_frame` (both tools): the hex md5
digest of the source file's basename, a dash, the frame index, and
`.png`.  The digest of the external `hashlib` library is a parameter
`md5hex`; every theorem below holds for every digest function. -/
def outputName (md5hex : String → String) (filepath : String) (index : Int) :
    String :=
  md5hex (pathName filepath) ++ "-" ++ toString index ++ ".png"

/-- A concrete digest function used to state closed facts about
`outputName`; the facts proved with it depend only on the digest's
argument, so they transfer to the real md5. -/
def md5hexStand : String → String := fun s => s

/-- Where `save_frame` writes its image. -/
inductive OutDir where
  | temp
  | retention (path : String)
deriving DecidableEq, Repr

/-- framescomp.py `save_frame`:
`TEMP_DIR if not KEEP_IMAGES or KEEP_IMAGES_PATH else Path(KEEP_IMAGES_PATH)`;
the path is truthy when it is a non-empty string. -/
def framescompOutputDir (keepImages : Bool) (keepImagesPath : Option String) :
    OutDir :=
  if !keepImages || optTruthy keepImagesPath then .temp
  else .retention (keepImagesPath.getD "")

/-- screenshots.py `save_frame`:
`TEMP_DIR if not KEEP_IMAGES or not KEEP_IMAGES_PATH else Path(KEEP_IMAGES_PATH)`. -/
def screenshotsOutputDir (keepImages : Bool) (keepImagesPath : Option String) :
    OutDir :=
  if !keepImages || !optTruthy keepImagesPath then .temp
  else .retention (keepImagesPath.getD "")

/-- The population of the random sampling in screenshots.py `main`:
`[index for index in range(clip.num_frames) if index not in CUSTOM_FRAMES]`. -/
def samplePopulation (numFrames : Nat) (customFrames : List Int) : List Nat :=
  (List.range numFrames).filter fun i => !(customFrames.contains (i : Int))

/-- The contract of `random.sample(population, k)` (Python library
documentation): it returns `k` pairwise-distinct elements chosen from the
population; which ones is the external randomness. -/
def isValidSample (population : List Nat) (k : Nat) (sample : List Nat) : Prop :=
  sample.length = k ∧ sample.Nodup ∧ ∀ x ∈ sample, x ∈ population

theorem get_frame_stats_isSome (src : Source) (frameIndex : Int)
    (h0 : 0 ≤ frameIndex) (h1 : frameIndex + 1 ≤ (src.frames.length : Int)) :
    ∃ fd, src.frames[frameIndex.toNat]? = some fd ∧
      get_frame_stats src frameIndex =
        some { index := frameIndex, type := classify fd.luma,
               pictType := fd.pictType, luma := fd.luma } := by
  have hlt : frameIndex.toNat < src.frames.length := by omega
  have hfd : src.frames[frameIndex.toNat]? = some src.frames[frameIndex.toNat] :=
    List.getElem?_eq_getElem hlt
  refine ⟨src.frames[frameIndex.toNat], hfd, ?_⟩
  simp only [get_frame_stats, hfd, Option.map_some']
  rw [if_neg (by omega)]

theorem get_frame_stats_eq_none (src : Source) (frameIndex : Int)
    (h : frameIndex < 0 ∨ (src.frames.length : Int) < frameIndex + 1) :
    get_frame_stats src frameIndex = none := by
  simp [get_frame_stats, h]

/-- C3: for every average-luma value `v` the classifier assigns exactly one
label: `dark` iff `0.062746 ≤ v ≤ 0.380000`, `light` iff
`0.450000 ≤ v ≤ 0.800000`, and `random` in every other case; all four
boundary values are inclusive. -/
theorem classify_exactly_one (v : ℚ) :
    (classify v = "dark" ∨ classify v = "light" ∨ classify v = "random") ∧
    (classify v = "dark" ↔ 0.062746 ≤ v ∧ v ≤ 0.380000) ∧
    (classify v = "light" ↔ 0.450000 ≤ v ∧ v ≤ 0.800000) ∧
    (classify v = "random" ↔
      ¬(0.062746 ≤ v ∧ v ≤ 0.380000) ∧ ¬(0.450000 ≤ v ∧ v ≤ 0.800000)) := by
  have e1 : (0.062746 : ℚ) = Rat.divInt 62746 1000000 := by norm_num [Rat.divInt_eq_div]
  have e2 : (0.380000 : ℚ) = Rat.divInt 380000 1000000 := by norm_num [Rat.divInt_eq_div]
  have e3 : (0.450000 : ℚ) = Rat.divInt 450000 1000000 := by norm_num [Rat.divInt_eq_div]
  have e4 : (0.800000 : ℚ) = Rat.divInt 800000 1000000 := by norm_num [Rat.divInt_eq_div]
  rw [e1, e2, e3, e4]
  have egap : Rat.divInt 380000 1000000 < Rat.divInt 450000 1000000 := by decide
  unfold classify
  split_ifs with h1 h2
  · refine ⟨Or.inl rfl, ⟨fun _ => h1, fun _ => rfl⟩, ?_, ?_⟩
    · constructor
      · intro h; exact absurd h (by decide)
      · intro h; exfalso; obtain ⟨hl, _⟩ := h; obtain ⟨_, hr⟩ := h1; linarith
    · constructor
      · intro h; exact absurd h (by decide)
      · intro h; exact absurd h1 h.1
  · refine ⟨Or.inr (Or.inl rfl), ⟨fun h => absurd h (by decide), fun h => absurd h h1⟩,
      ⟨fun _ => h2, fun _ => rfl⟩, ⟨fun h => absurd h (by decide), fun h => absurd h2 h.2⟩⟩
  · refine ⟨Or.inr (Or.inr rfl), ⟨fun h => absurd h (by decide), fun h => absurd h h1⟩,
      ⟨fun h => absurd h (by decide), fun h => absurd h h2⟩,
      ⟨fun _ => ⟨h1, h2⟩, fun _ => rfl⟩⟩

/-- C4: a candidate group is placed in bucket `L` iff every member frame's
classification equals `L` (strict AND across sources); a group whose
members have mixed classifications belongs to none of the three standard
buckets. -/
theorem bucket_and_semantics (frames : List (List Member)) (g : List Member)
    (hg : g ∈ frames) :
    (∀ L, g ∈ bucket L frames ↔ ∀ f ∈ g, f.props.type = L) ∧
    (∀ f₁ ∈ g, ∀ f₂ ∈ g, f₁.props.type ≠ f₂.props.type →
      g ∉ bucket "dark" frames ∧ g ∉ bucket "light" frames ∧
        g ∉ bucket "random" frames) := by
  have hmem : ∀ L, g ∈ bucket L frames ↔ ∀ f ∈ g, f.props.type = L := by
    intro L
    simp only [bucket, List.mem_filter, List.all_eq_true, beq_iff_eq]
    exact ⟨fun h => h.2, fun h => ⟨hg, h⟩⟩
  refine ⟨hmem, ?_⟩
  intro f₁ h₁ f₂ h₂ hne
  have : ∀ L, g ∉ bucket L frames := by
    intro L hL
    rw [hmem L] at hL
    exact hne ((hL f₁ h₁).trans (hL f₂ h₂).symm)
  exact ⟨this _, this _, this _⟩

theorem buildGroupFrom_shape (ft : FramesType) (i : Int) :
    ∀ (srcs : List Source) (cur : Option String) (g : List Member),
      buildGroupFrom ft i srcs cur = some g →
      g.map (·.index) = srcs.map (fun s => i + s.sync) ∧
        g.map (·.file) = srcs.map (·.file) := by
  intro srcs
  induction srcs with
  | nil =>
    intro cur g h
    simp only [buildGroupFrom, Option.some_inj] at h
    subst h; exact ⟨rfl, rfl⟩
  | cons src rest ih =>
    intro cur g h
    cases hfs : get_frame_stats src (i + src.sync) with
    | none => simp only [buildGroupFrom, hfs] at h; exact Option.noConfusion h
    | some fi =>
      simp only [buildGroupFrom, hfs] at h
      split at h
      · exact absurd h (by simp)
      · cases hrec : buildGroupFrom ft i rest fi.pictType with
        | none => rw [hrec, Option.map_none'] at h; exact absurd h (by simp)
        | some ms =>
          rw [hrec, Option.map_some'] at h
          obtain ⟨h1, h2⟩ := ih fi.pictType ms hrec
          cases h
          constructor
          · simp [h1]
          · simp [h2]

theorem buildGroupFrom_oob (ft : FramesType) (i : Int) :
    ∀ (srcs : List Source) (cur : Option String),
      (∃ s ∈ srcs, i + s.sync < 0 ∨ (s.frames.length : Int) < i + s.sync + 1) →
      buildGroupFrom ft i srcs cur = none := by
  intro srcs
  induction srcs with
  | nil => intro cur h; exact absurd h (by simp)
  | cons src rest ih =>
    intro cur h
    cases hfs : get_frame_stats src (i + src.sync) with
    | none => simp only [buildGroupFrom, hfs]
    | some fi =>
      have hsrc : ¬(i + src.sync < 0 ∨ (src.frames.length : Int) < i + src.sync + 1) := by
        intro hc
        rw [get_frame_stats_eq_none src (i + src.sync) hc] at hfs
        exact absurd hfs (by simp)
      obtain ⟨s, hs, hoob⟩ := h
      rcases List.mem_cons.mp hs with rfl | hs'
      · exact absurd hoob hsrc
      · simp only [buildGroupFrom, hfs]
        split
        · rfl
        · rw [ih fi.pictType ⟨s, hs', hoob⟩, Option.map_none']

theorem candidates_eq_snd (ft : FramesType) (sources : List Source) (maxFrames : Nat) :
    candidates ft sources maxFrames = (candidatesIdx ft sources maxFrames).map Prod.snd := by
  unfold candidates candidatesIdx
  rw [List.map_filterMap]
  congr 1
  funext j
  cases buildGroup ft sources (j : Int) <;> rfl

theorem candidatesIdx_increasing (ft : FramesType) (sources : List Source) (maxFrames : Nat) :
    List.Pairwise (fun a b => a.1 < b.1) (candidatesIdx ft sources maxFrames) := by
  have hr : List.Pairwise (· < ·) (List.range maxFrames) := List.pairwise_lt_range maxFrames
  refine List.Pairwise.filterMap _ ?_ hr
  intro a b hab x hx y hy
  simp only [Option.mem_def, Option.map_eq_some'] at hx hy
  obtain ⟨gx, hgx, hx2⟩ := hx
  obtain ⟨gy, hgy, hy2⟩ := hy
  subst hx2; subst hy2
  show (a : Int) < (b : Int)
  exact_mod_cast hab

/-- C2: a `FrameGroup` produced at logical position `i` references exactly
the effective frame indices `i + sync` of the sources, one per source in
source order; if any effective index is outside `[0, num_frames)` of its
source, no group is produced at `i`; and surviving groups appear in the
candidate list in increasing order of `i`. -/
theorem frameGroup_alignment (ft : FramesType) (sources : List Source)
    (i : Nat) (g : List Member) :
    (buildGroup ft sources i = some g →
      g.map (·.index) = sources.map (fun s => (i : Int) + s.sync) ∧
        g.map (·.file) = sources.map (·.file)) ∧
    ((∃ s ∈ sources, (i : Int) + s.sync < 0 ∨
        (s.frames.length : Int) < (i : Int) + s.sync + 1) →
      buildGroup ft sources i = none) ∧
    candidates ft sources (maxNumFrames sources) =
      (candidatesIdx ft sources (maxNumFrames sources)).map Prod.snd ∧
    List.Pairwise (fun a b => a.1 < b.1)
      (candidatesIdx ft sources (maxNumFrames sources)) ∧
    (∀ p ∈ candidatesIdx ft sources (maxNumFrames sources),
      buildGroup ft sources p.1 = some p.2) := by
  refine ⟨fun h => buildGroupFrom_shape ft i sources ft.initial g h,
    fun h => buildGroupFrom_oob ft i sources ft.initial h,
    candidates_eq_snd ft sources (maxNumFrames sources),
    candidatesIdx_increasing ft sources (maxNumFrames sources), ?_⟩
  intro p hp
  simp only [candidatesIdx, List.mem_filterMap] at hp
  obtain ⟨j, _, hj⟩ := hp
  simp only [Option.map_eq_some'] at hj
  obtain ⟨gj, hgj, hpj⟩ := hj
  subst hpj
  exact hgj

/-- Witness for the alignment theorem at concrete inputs: at position 0 of
two one-frame sources the produced group references the effective indices,
and at position 5 (out of range for both) no group is produced. -/
theorem frameGroup_alignment_witness :
    ([⟨"intra.mkv", 0, ⟨0, "dark", some "I", Rat.divInt 1 10⟩⟩,
      ⟨"intra.mkv", 0, ⟨0, "dark", some "I", Rat.divInt 1 10⟩⟩] :
        List Member).map (·.index) =
      [cexIntra, cexIntra].map (fun s => (0 : Int) + s.sync) ∧
    buildGroup .disabled [cexIntra, cexIntra] 5 = none :=
  ⟨((frameGroup_alignment .disabled [cexIntra, cexIntra] 0
      [⟨"intra.mkv", 0, ⟨0, "dark", some "I", Rat.divInt 1 10⟩⟩,
       ⟨"intra.mkv", 0, ⟨0, "dark", some "I", Rat.divInt 1 10⟩⟩]).1 (by decide)).1,
   (frameGroup_alignment .disabled [cexIntra, cexIntra] 5 []).2.1 (by decide)⟩

/-- Witness for the bucket theorem: a one-member dark group is in the dark
bucket of the candidate list containing it. -/
theorem bucket_and_semantics_witness :
    [(⟨"intra.mkv", 0, ⟨0, "dark", some "I", Rat.divInt 1 10⟩⟩ : Member)] ∈
      bucket "dark" [[⟨"intra.mkv", 0, ⟨0, "dark", some "I", Rat.divInt 1 10⟩⟩]] :=
  ((bucket_and_semantics [[⟨"intra.mkv", 0, ⟨0, "dark", some "I", Rat.divInt 1 10⟩⟩]]
    [⟨"intra.mkv", 0, ⟨0, "dark", some "I", Rat.divInt 1 10⟩⟩]
    (by decide)).1 "dark").mpr (by decide)

theorem buildGroupFrom_disabled_isSome (i : Int) :
    ∀ (srcs : List Source) (cur : Option String),
      (∀ s ∈ srcs, 0 ≤ i + s.sync ∧ i + s.sync + 1 ≤ (s.frames.length : Int)) →
      (buildGroupFrom .disabled i srcs cur).isSome = true := by
  intro srcs
  induction srcs with
  | nil => intro cur _; rfl
  | cons src rest ih =>
    intro cur hin
    obtain ⟨h0, h1⟩ := hin src (List.mem_cons_self src rest)
    obtain ⟨fd, hfd, hsome⟩ := get_frame_stats_isSome src (i + src.sync) h0 h1
    simp only [buildGroupFrom, hsome]
    rw [if_neg (by simp)]
    cases hrec : buildGroupFrom .disabled i rest fd.pictType with
    | none =>
      have := ih fd.pictType (fun s hs => hin s (List.mem_cons_of_mem src hs))
      rw [hrec] at this
      exact absurd this (by simp)
    | some ms => simp [hrec]

theorem buildGroupFrom_isSome_iff_chainOk (ft : FramesType) (i : Int)
    (hft : ft ≠ .disabled) :
    ∀ (srcs : List Source) (cur : Option String),
      (∀ s ∈ srcs, 0 ≤ i + s.sync ∧ i + s.sync + 1 ≤ (s.frames.length : Int)) →
      ((buildGroupFrom ft i srcs cur).isSome = true ↔
        chainOk cur (srcs.map fun s => pictTypeAt s i)) := by
  intro srcs
  induction srcs with
  | nil => intro cur _; simp [buildGroupFrom, chainOk]
  | cons src rest ih =>
    intro cur hin
    obtain ⟨h0, h1⟩ := hin src (List.mem_cons_self src rest)
    obtain ⟨fd, hfd, hsome⟩ := get_frame_stats_isSome src (i + src.sync) h0 h1
    have hpt : pictTypeAt src i = fd.pictType := by
      simp [pictTypeAt, hfd]
    have hrest := ih fd.pictType (fun s hs => hin s (List.mem_cons_of_mem src hs))
    simp only [buildGroupFrom, hsome, List.map_cons, chainOk, hpt]
    by_cases htr : optTruthy cur = true
    · by_cases heq : fd.pictType = cur
      · rw [if_neg (by simp [heq])]
        rw [Option.isSome_map']
        rw [hrest]
        simp [htr, heq]
      · rw [if_pos ⟨hft, htr, by simp [heq]⟩]
        simp only [Option.isSome_none, Bool.false_eq_true, false_iff, not_and]
        intro hc
        exact absurd (hc htr) heq
    · rw [if_neg (by simp [htr])]
      rw [Option.isSome_map']
      rw [hrest]
      simp [htr]

theorem chainOk_truthy_iff (q : Option String) (hq : optTruthy q = true) :
    ∀ ts : List (Option String),
      (∀ p ∈ ts, p ≠ none ∧ p ≠ some "") →
      (chainOk q ts ↔ ∀ p ∈ ts, p = q) := by
  intro ts
  induction ts generalizing q with
  | nil => intro _; simp [chainOk]
  | cons p ps ih =>
    intro hpres
    have hptr : optTruthy p = true := by
      obtain ⟨hn, he⟩ := hpres p (List.mem_cons_self p ps)
      cases p with
      | none => exact absurd rfl hn
      | some c =>
        have : c ≠ "" := fun hc => he (by rw [hc])
        simp [optTruthy, this]
    have ihp := ih p hptr (fun r hr => hpres r (List.mem_cons_of_mem p hr))
    simp only [chainOk]
    constructor
    · rintro ⟨h1, h2⟩
      have hpq := h1 hq
      intro r hr
      rcases List.mem_cons.mp hr with rfl | hr'
      · exact hpq
      · exact (ihp.mp h2 r hr').trans hpq
    · intro hall
      refine ⟨fun _ => hall p (List.mem_cons_self p ps), ihp.mpr ?_⟩
      intro r hr
      rw [hall r (List.mem_cons_of_mem p hr), hall p (List.mem_cons_self p ps)]

theorem pairwise_eq_of_all_eq {α : Type} (p : α) :
    ∀ ps : List α, (∀ r ∈ ps, r = p) → ps.Pairwise (· = ·) := by
  intro ps
  induction ps with
  | nil => intro _; exact List.Pairwise.nil
  | cons q qs ih =>
    intro h
    refine List.Pairwise.cons ?_ (ih fun r hr => h r (List.mem_cons_of_mem q hr))
    intro r hr
    rw [h q (List.mem_cons_self q qs), h r (List.mem_cons_of_mem q hr)]

theorem chainOk_none_iff (ts : List (Option String))
    (hpres : ∀ p ∈ ts, p ≠ none ∧ p ≠ some "") :
    chainOk none ts ↔ ts.Pairwise (· = ·) := by
  cases ts with
  | nil => simp [chainOk]
  | cons p ps =>
    have hptr : optTruthy p = true := by
      obtain ⟨hn, he⟩ := hpres p (List.mem_cons_self p ps)
      cases p with
      | none => exact absurd rfl hn
      | some c =>
        have : c ≠ "" := fun hc => he (by rw [hc])
        simp [optTruthy, this]
    have hiff := chainOk_truthy_iff p hptr ps
      (fun r hr => hpres r (List.mem_cons_of_mem p hr))
    simp only [chainOk, optTruthy, Bool.false_eq_true, false_implies, true_and]
    rw [hiff]
    constructor
    · intro hall
      exact List.Pairwise.cons (fun r hr => (hall r hr).symm)
        (pairwise_eq_of_all_eq p ps hall)
    · intro hpw
      exact fun r hr => ((List.pairwise_cons.mp hpw).1 r hr).symm

/-- C1 (amended): with every member frame in range and every member's
picture type present (a nonempty string), the group at a logical position
survives the analysis pass iff — with `FRAMES_TYPE = None` — all member
picture types are pairwise equal, and — with a configured type `t` — all
member picture types equal `t`; with `FRAMES_TYPE = False` the check is
skipped and the group always survives.  (Without the presence proviso the
pairwise-equality characterisation fails: an absent `PictType` is falsy in
Python, so it is never itself rejected and it resets the running agreed
type; see the counterexample.) -/
theorem pictureType_filter (sources : List Source) (i : Int) (t : String)
    (hin : ∀ s ∈ sources, 0 ≤ i + s.sync ∧ i + s.sync + 1 ≤ (s.frames.length : Int))
    (hpres : ∀ s ∈ sources, pictTypeAt s i ≠ none ∧ pictTypeAt s i ≠ some "")
    (ht : t ≠ "") :
    (buildGroup .disabled sources i).isSome = true ∧
    ((buildGroup .null sources i).isSome = true ↔
      (sources.map fun s => pictTypeAt s i).Pairwise (· = ·)) ∧
    ((buildGroup (.only t) sources i).isSome = true ↔
      ∀ s ∈ sources, pictTypeAt s i = some t) := by
  have hpres' : ∀ p ∈ (sources.map fun s => pictTypeAt s i),
      p ≠ none ∧ p ≠ some "" := by
    intro p hp
    obtain ⟨s, hs, rfl⟩ := List.mem_map.mp hp
    exact hpres s hs
  refine ⟨buildGroupFrom_disabled_isSome i sources FramesType.disabled.initial hin,
    ?_, ?_⟩
  · rw [buildGroup,
      buildGroupFrom_isSome_iff_chainOk .null i (by simp) sources FramesType.null.initial hin]
    exact chainOk_none_iff _ hpres'
  · rw [buildGroup,
      buildGroupFrom_isSome_iff_chainOk (.only t) i (by simp) sources
        (FramesType.only t).initial hin]
    show chainOk (some t) _ ↔ _
    rw [chainOk_truthy_iff (some t) (by simp [optTruthy, ht]) _ hpres']
    constructor
    · intro h s hs
      exact h (pictTypeAt s i) (List.mem_map.mpr ⟨s, hs, rfl⟩)
    · intro h p hp
      obtain ⟨s, hs, rfl⟩ := List.mem_map.mp hp
      exact h s hs

/-- C1 counterexample: with filtering enabled dynamically
(`FRAMES_TYPE = None`), the group pairing a frame with an absent picture
type and a frame of picture type `I` survives into the candidate list even
though the member picture types are not pairwise equal — the absent type
is falsy, so the mismatch is never checked. -/
theorem pictureType_filter_counterexample :
    (buildGroup .null [cexAbsent, cexIntra] 0).isSome = true ∧
    ¬ (([cexAbsent, cexIntra].map fun s => pictTypeAt s 0).Pairwise (· = ·)) ∧
    (candidates .null [cexAbsent, cexIntra]
      (maxNumFrames [cexAbsent, cexIntra])).length = 1 := by
  refine ⟨by decide, by decide, by decide⟩

/-- Witness for the picture-type theorem at a concrete input: two I-frame
sources under a configured type `I`. -/
theorem pictureType_filter_witness :
    (buildGroup (.only "I") [cexIntra, cexIntra] 0).isSome = true :=
  ((pictureType_filter [cexIntra, cexIntra] 0 "I" (by decide) (by decide)
    (by decide)).2.2).mpr (by decide)

/-- C5: in the end-to-end scenario (2 identical 10-frame sources, no sync
offsets, type filtering disabled, lumas
`[0.1, 0.1, 0.5, 0.5, 0.9, 0.9, 0.1, 0.1, 0.5, 0.5]`): a candidate group
exists at every position 0..9, the dark bucket holds the groups at
`{0, 1, 6, 7}`, the light bucket those at `{2, 3, 8, 9}`, the random
bucket those at `{4, 5}`, and any choice of 2 distinct dark groups, 1
light group and 1 random group yields 4 pairwise-distinct groups with
pairwise-disjoint (file, frame-index) sets. -/
theorem endToEnd_scenario :
    maxNumFrames [scenA, scenB] = 10 ∧
    scenCandidates.map (fun g => g.map (·.index)) =
      [[0, 0], [1, 1], [2, 2], [3, 3], [4, 4], [5, 5], [6, 6], [7, 7], [8, 8], [9, 9]] ∧
    scenDark.map (fun g => g.map (·.index)) = [[0, 0], [1, 1], [6, 6], [7, 7]] ∧
    scenLight.map (fun g => g.map (·.index)) = [[2, 2], [3, 3], [8, 8], [9, 9]] ∧
    scenRandom.map (fun g => g.map (·.index)) = [[4, 4], [5, 5]] ∧
    (∀ d₁ ∈ scenDark, ∀ d₂ ∈ scenDark, d₁ ≠ d₂ →
      ∀ l ∈ scenLight, ∀ r ∈ scenRandom,
        [d₁, d₂, l, r].Pairwise (· ≠ ·) ∧
        ([d₁, d₂, l, r].map fun g => g.map fun m => (m.file, m.index)).Pairwise
          (fun ks₁ ks₂ => ∀ k ∈ ks₁, k ∉ ks₂)) := by
  refine ⟨by decide, by decide, by decide, by decide, by decide, by decide⟩

/-- Witness for the scenario theorem: the first two dark groups, the first
light group and the first random group are distinct and non-overlapping. -/
theorem endToEnd_scenario_witness :
    [scenDark.getD 0 [], scenDark.getD 1 [], scenLight.getD 0 [],
      scenRandom.getD 0 []].Pairwise (· ≠ ·) ∧
    ([scenDark.getD 0 [], scenDark.getD 1 [], scenLight.getD 0 [],
      scenRandom.getD 0 []].map fun g => g.map fun m => (m.file, m.index)).Pairwise
        (fun ks₁ ks₂ => ∀ k ∈ ks₁, k ∉ ks₂) :=
  endToEnd_scenario.2.2.2.2.2 (scenDark.getD 0 []) (by decide)
    (scenDark.getD 1 []) (by decide) (by decide)
    (scenLight.getD 0 []) (by decide) (scenRandom.getD 0 []) (by decide)

/-- C6: a custom-frame request naming a (source, frame-index) pair that is
already present in some group selected by a standard bucket or by an
earlier custom request is rejected: the step reports `alreadyUsed`, the
captures state is unchanged, and so is the number of selected groups. -/
theorem customFrame_dedup (files : List Source) (frames : List (List Member))
    (caps : Captures) (cf : CustomFrame) (file : Source)
    (hfile : files[cf.file_index]? = some file)
    (hused : ∃ ctype ∈ caps.values, ∃ g ∈ ctype, ∃ m ∈ g,
      m.file = file.file ∧ m.props.index = cf.frame_index) :
    customStep files frames caps cf = (caps, .alreadyUsed) ∧
    (customStep files frames caps cf).1 = caps ∧
    (customStep files frames caps cf).1.custom.length = caps.custom.length := by
  have hb : pairUsed file.file cf.frame_index caps.values = true := by
    simp only [pairUsed, List.any_eq_true, Bool.and_eq_true, beq_iff_eq]
    obtain ⟨ctype, hct, g, hg, m, hm, h1, h2⟩ := hused
    exact ⟨ctype, hct, g, hg, m, hm, h1, h2⟩
  have h : customStep files frames caps cf = (caps, .alreadyUsed) := by
    unfold customStep
    rw [hfile]
    simp [hb]
  exact ⟨h, by rw [h], by rw [h]⟩

/-- Witness for the deduplication theorem: a custom request for frame 0 of
the first source after a dark-bucket selection already claimed it. -/
theorem customFrame_dedup_witness :
    customStep [cexIntra] []
      ⟨[], [[[⟨"intra.mkv", 0, ⟨0, "dark", some "I", Rat.divInt 1 10⟩⟩]]]⟩
      ⟨0, 0⟩ =
      (⟨[], [[[⟨"intra.mkv", 0, ⟨0, "dark", some "I", Rat.divInt 1 10⟩⟩]]]⟩,
        .alreadyUsed) :=
  (customFrame_dedup [cexIntra] []
    ⟨[], [[[⟨"intra.mkv", 0, ⟨0, "dark", some "I", Rat.divInt 1 10⟩⟩]]]⟩
    ⟨0, 0⟩ cexIntra rfl
    ⟨[[⟨"intra.mkv", 0, ⟨0, "dark", some "I", Rat.divInt 1 10⟩⟩]],
      by simp [Captures.values],
      [⟨"intra.mkv", 0, ⟨0, "dark", some "I", Rat.divInt 1 10⟩⟩], by simp,
      ⟨"intra.mkv", 0, ⟨0, "dark", some "I", Rat.divInt 1 10⟩⟩, by simp,
      rfl, rfl⟩).1

/-- C7: when the configuration yields fewer than two usable sources, the
run terminates with exit code 1 and its event trace contains no
frame-decode event — no frame of any source is decoded. -/
theorem tooFewSources_rejected (cfg : Config)
    (h : ((cfg.files.filter fun fc => fc.readable).map fun fc => fc.source).length < 2) :
    (mainAnalysis cfg).2 = .error 1 ∧
    ∀ e ∈ (mainAnalysis cfg).1, ∀ f idx, e ≠ Event.decodeFrame f idx := by
  unfold mainAnalysis
  by_cases h1 : cfg.keepImages = true ∧ optTruthy cfg.keepImagesPath = false
  · rw [if_pos h1]
    exact ⟨rfl, by simp⟩
  · rw [if_neg h1]
    by_cases h2 : cfg.darkFrames < 1 ∧ cfg.lightFrames < 1 ∧ cfg.randomFrames < 1 ∧
        cfg.customFrames.length < 1
    · rw [if_pos h2]
      exact ⟨rfl, by simp⟩
    · rw [if_neg h2]
      dsimp only
      rw [if_pos h]
      refine ⟨rfl, ?_⟩
      intro e he f idx
      simp only [List.mem_map] at he
      obtain ⟨fc, _, rfl⟩ := he
      simp

/-- Witness for the rejection theorem: a single readable source with the
default request counts. -/
theorem tooFewSources_rejected_witness :
    (mainAnalysis ⟨[⟨cexIntra, true⟩], 3, 3, 3, [], false, none, .null⟩).2 =
      .error 1 ∧
    ∀ e ∈ (mainAnalysis ⟨[⟨cexIntra, true⟩], 3, 3, 3, [], false, none, .null⟩).1,
      ∀ f idx, e ≠ Event.decodeFrame f idx :=
  tooFewSources_rejected ⟨[⟨cexIntra, true⟩], 3, 3, 3, [], false, none, .null⟩
    (by decide)

/-- C8 counterexample: two distinct source identities that share a
basename receive the same output filename at the same frame index — the
name hashes only `Path(filepath).name`, never the directory part of the
source identity.  The two names agree for every digest function (both
sides digest the same basename), in particular for the real md5. -/
theorem outputName_collision :
    "/a/video.mkv" ≠ "/b/video.mkv" ∧
    outputName md5hexStand "/a/video.mkv" 5 =
      outputName md5hexStand "/b/video.mkv" 5 := by
  exact ⟨by decide, rfl⟩

/-- C8 (amended): the output filename is a deterministic function of the
source file's basename and the frame index alone — for every digest
function, sources with equal basenames receive identical filenames at
equal frame indices (hence repeated runs over the same inputs name
files identically, and distinct source paths sharing a basename
collide). -/
theorem outputName_basename_only (md5hex : String → String)
    (p q : String) (i : Int) (h : pathName p = pathName q) :
    outputName md5hex p i = outputName md5hex q i := by
  unfold outputName
  rw [h]

/-- Witness for the filename theorem: two paths with the same basename in
different directories, frame 7. -/
theorem outputName_basename_only_witness :
    outputName md5hexStand "x/clip.mkv" 7 = outputName md5hexStand "y/clip.mkv" 7 :=
  outputName_basename_only md5hexStand "x/clip.mkv" "y/clip.mkv" 7 (by decide)

/-- C9: in the comparison tool, `save_frame` writes under the temporary
directory whenever `KEEP_IMAGES` is false or `KEEP_IMAGES_PATH` is a
non-empty path; in particular, with retention enabled and a retention
path configured the image still goes to the temporary directory and never
to the retention path — unlike the single-file tool, which writes to the
retention path in that configuration. -/
theorem framescomp_writes_temp (keepImages : Bool) (path : Option String)
    (h : keepImages = false ∨ optTruthy path = true) :
    framescompOutputDir keepImages path = .temp ∧
    (∀ s, s ≠ "" →
      framescompOutputDir true (some s) = .temp ∧
      framescompOutputDir true (some s) ≠ .retention s ∧
      screenshotsOutputDir true (some s) = .retention s) := by
  constructor
  · unfold framescompOutputDir
    rcases h with h | h
    · rw [if_pos]
      rw [h]
      simp
    · rw [if_pos]
      rw [h]
      simp
  · intro s hs
    have htr : optTruthy (some s) = true := by simp [optTruthy, hs]
    refine ⟨?_, ?_, ?_⟩
    · unfold framescompOutputDir
      rw [if_pos]
      rw [htr]
      simp
    · unfold framescompOutputDir
      rw [if_pos]
      · simp
      · rw [htr]
        simp
    · unfold screenshotsOutputDir
      rw [if_neg]
      · simp
      · rw [htr]
        simp

/-- Witness for the output-directory theorem: retention enabled with the
path `shots` still writes to the temporary directory in the comparison
tool and to `shots` in the single-file tool. -/
theorem framescomp_writes_temp_witness :
    framescompOutputDir true (some "shots") = .temp ∧
    framescompOutputDir true (some "shots") ≠ .retention "shots" ∧
    screenshotsOutputDir true (some "shots") = .retention "shots" :=
  (framescomp_writes_temp true (some "shots") (Or.inr (by decide))).2 "shots"
    (by decide)

/-- C10: every outcome of the random sampling of the single-file tool
consists of pairwise-distinct frame indices, each in `[0, num_frames)` and
none equal to any entry of `CUSTOM_FRAMES`; hence no frame index appears
both among the random and the custom selections of one run. -/
theorem randomSample_disjoint (numFrames : Nat) (customFrames : List Int)
    (k : Nat) (sample : List Nat)
    (h : isValidSample (samplePopulation numFrames customFrames) k sample) :
    sample.Nodup ∧
    (∀ x ∈ sample, x < numFrames ∧ ¬((x : Int) ∈ customFrames)) ∧
    (∀ x ∈ sample, ∀ y ∈ customFrames, (x : Int) ≠ y) := by
  obtain ⟨-, hnd, hmem⟩ := h
  have hprop : ∀ x ∈ sample, x < numFrames ∧ ¬((x : Int) ∈ customFrames) := by
    intro x hx
    have := hmem x hx
    simp [samplePopulation] at this
    exact this
  refine ⟨hnd, hprop, ?_⟩
  intro x hx y hy hxy
  exact (hprop x hx).2 (hxy ▸ hy)

/-- Witness for the sampling theorem: 3 frames, custom frame 1, sample
`[0]`. -/
theorem randomSample_disjoint_witness :
    ([0] : List Nat).Nodup ∧
    (∀ x ∈ ([0] : List Nat), x < 3 ∧ ¬((x : Int) ∈ [(1 : Int)])) ∧
    (∀ x ∈ ([0] : List Nat), ∀ y ∈ [(1 : Int)], (x : Int) ≠ y) :=
  randomSample_disjoint 3 [1] 1 [0]
    (by exact ⟨rfl, by decide, by decide⟩)

end Toolbox
